import Mathlib

/-! Verification of the composite network of inet256 (file pkg/inet256/network.go).

A shallow embedding of the struct multiNetwork, the router that presents an ordered list of
constituent networks as one network.

A constituent is a black box behind the Network interface.  It is represented by a handle,
and what its methods return is given by a record of functions whose answers may depend on
the whole history of calls made so far and on the context they are given.

Every call the composite makes on a constituent is appended to a call log, so that which
constituent was called, how often and in which order can be stated.

The goroutines of addrWithPrefix write disjoint slots of the slices addrs and errs and are
joined by wg.Wait() before the slots are read.  They are run here one after the other, in a
completion order chosen by a schedule argument; every permutation of the goroutines is the
completion order of some schedule.  A goroutine is given the derived context in the state in
which the goroutines completed before it have left it: cancelled once one of them succeeded.

The methods are first given as functions that run from call to return with no other caller
active.  Callers that overlap in time are modelled after that: a call advances in steps, one
for each access to the shared cache (the Load, the fan-out, the Store, the delegated call),
and the steps of different callers interleave in any order. -/

namespace Inet256

/-! ## Data model -/

/-- Modelled from the spec: the `Addr` type is declared outside the files at hand; it is a
fixed-length byte array (it is sliced with `addr[:]`, measured with `len(addr)` and used as a
map key).  The bytes are kept as a list. -/
structure Addr where
  bytes : List Nat
deriving DecidableEq, Repr

/-- Modelled from the spec: the number of bytes of an `Addr` (256 bits). -/
def AddrLen : Nat := 32

/-- The zero value `Addr{}`. -/
def Addr.zero : Addr := ⟨List.replicate AddrLen 0⟩

/-- A non-nil value of interface type `Network`: the handle of a constituent. -/
abbrev Network := Nat

/-- A value of type `RecvFunc`.  The composite never calls it, it only hands it on, so a
callback is represented by its identity. -/
structure RecvFunc where
  id : Nat
deriving DecidableEq, Repr

/-- A non-nil `p2p.PublicKey`. -/
abbrev PublicKey := Nat

/-- A `context.Context`, reduced to what a callee can observe of it here: whether it has
been cancelled. -/
structure Context where
  done : Bool
deriving DecidableEq, Repr

/-- A non-nil `error` value. -/
inductive Error where
  /-- The package-level `ErrAddrUnreachable`. -/
  | ErrAddrUnreachable
  /-- The value of `fmt.Errorf("errors occurred %v", addrs)`: it prints the slice `addrs`. -/
  | errorsOccurred (addrs : List Addr)
  /-- Any error produced by a constituent. -/
  | constituent (code : Nat)
deriving DecidableEq, Repr

/-- A run-time panic. -/
inductive Panic where
  /-- Method call through a nil interface value. -/
  | nilDereference
deriving DecidableEq, Repr

/-- One method call made on a constituent. -/
inductive Event where
  | Tell (n : Network) (addr : Addr) (data : List Nat)
  | OnRecv (n : Network) (fn : RecvFunc)
  | MTU (n : Network) (addr : Addr)
  | LookupPublicKey (n : Network) (addr : Addr)
  | FindAddr (n : Network) (pfx : List Nat) (nbits : Int)
  | Close (n : Network)
deriving DecidableEq, Repr

/-- The behaviour of the constituents: what each method of the `Network` interface returns,
given the constituent it is called on, the calls made before it and its arguments.
`OnRecv` returns nothing. -/
structure Constituents where
  Tell : Network → List Event → Context → Addr → List Nat → Option Error
  MTU : Network → List Event → Context → Addr → Int
  LookupPublicKey : Network → List Event → Context → Addr → Option PublicKey × Option Error
  FindAddr : Network → List Event → Context → List Nat → Int → Addr × Option Error
  Close : Network → List Event → Option Error

/-- The `sync.Map` field `addrMap`, as an association list with at most one entry per key. -/
abbrev AddrMap := List (Addr × Network)

/-- The method `sync.Map.Load`. -/
def AddrMap.Load (m : AddrMap) (addr : Addr) : Option Network :=
  (m.find? (fun e => e.1 == addr)).map Prod.snd

/-- The method `sync.Map.Store`: sets the value for a key, replacing an earlier one. -/
def AddrMap.Store (m : AddrMap) (addr : Addr) (network : Network) : AddrMap :=
  (addr, network) :: m.filter (fun e => !(e.1 == addr))

/-- The struct `multiNetwork` (the mutex field `mu` is never used by the code). -/
structure multiNetwork where
  networks : List Network
  addrMap : AddrMap
deriving DecidableEq, Repr

/-- The constructor `NewMultiNetwork`. -/
def NewMultiNetwork (networks : List Network) : multiNetwork :=
  { networks := networks, addrMap := [] }

/-- What a method of the composite leaves behind: its return value, the composite and the
call log. -/
structure Result (α : Type) where
  ret : α
  mn : multiNetwork
  log : List Event

/-! ## Discovery fan-out -/

/-- The variables shared by the goroutines of `addrWithPrefix`: the two result slices, the
state of the context made by `context.WithCancel`, and the call log. -/
structure FanOut where
  addrs : List Addr
  errs : List (Option Error)
  cancelled : Bool
  log : List Event

/-- The body of one goroutine, for loop variables `i` and `network`:
`addrs[i], errs[i] = network.FindAddr(ctx, pfx, nbits); if errs[i] == nil { cf() }`. -/
def goroutine (env : Constituents) (pfx : List Nat) (nbits : Int) (st : FanOut)
    (g : Nat × Network) : FanOut :=
  let r := env.FindAddr g.2 st.log ⟨st.cancelled⟩ pfx nbits
  { addrs := st.addrs.set g.1 r.1
    errs := st.errs.set g.1 r.2
    cancelled := st.cancelled || r.2.isNone
    log := st.log ++ [Event.FindAddr g.2 pfx nbits] }

/-- The order in which goroutines complete.  The goroutines are taken in spawn order and
each is inserted into the order built from the later ones at the position the schedule
picks, so every schedule gives a permutation and every permutation is given by one. -/
def completionOrder {α : Type} : List α → List Nat → List α
  | [], _ => []
  | g :: rest, sched =>
    (completionOrder rest sched.tail).insertIdx (sched.headD 0 % (rest.length + 1)) g

/-- The state reached at `wg.Wait()`: one goroutine per element of `networks`, run to
completion in the order of the schedule, from zeroed slices and the derived context. -/
def fanOut (env : Constituents) (networks : List Network) (sched : List Nat) (ctx : Context)
    (pfx : List Nat) (nbits : Int) (log : List Event) : FanOut :=
  (completionOrder networks.enum sched).foldl (goroutine env pfx nbits)
    { addrs := List.replicate networks.length Addr.zero
      errs := List.replicate networks.length none
      cancelled := ctx.done
      log := log }

/-- The loop `for i, addr := range addrs { if errs[i] == nil { return addr, mn.networks[i], nil } }`
started at index `i`; `none` when the loop runs to its end. -/
def scan (networks : List Network) (errs : List (Option Error)) :
    Nat → List Addr → Option (Addr × Option Network)
  | _, [] => none
  | i, addr :: rest =>
    match errs[i]? with
    | some none => some (addr, networks[i]?)
    | _ => scan networks errs (i + 1) rest

/-- The return values of `addrWithPrefix`. -/
structure Found where
  addr : Addr
  network : Option Network
  err : Option Error
deriving DecidableEq, Repr

/-- The method `multiNetwork.addrWithPrefix`. -/
def multiNetwork.addrWithPrefix (mn : multiNetwork) (env : Constituents) (log : List Event)
    (sched : List Nat) (ctx : Context) (pfx : List Nat) (nbits : Int) : Result Found :=
  let st := fanOut env mn.networks sched ctx pfx nbits log
  match scan mn.networks st.errs 0 st.addrs with
  | some (addr, network) => ⟨⟨addr, network, none⟩, mn, st.log⟩
  | none => ⟨⟨Addr.zero, none, some (Error.errorsOccurred st.addrs)⟩, mn, st.log⟩

/-- The method `multiNetwork.whichNetwork`; `none` is the nil `Network`.  The last case,
a nil error with a nil network, is never returned by `addrWithPrefix` (see
`addrWithPrefix_network_of_no_err`). -/
def multiNetwork.whichNetwork (mn : multiNetwork) (env : Constituents) (log : List Event)
    (sched : List Nat) (ctx : Context) (addr : Addr) : Result (Option Network) :=
  match mn.addrMap.Load addr with
  | some x => ⟨some x, mn, log⟩
  | none =>
    let r := mn.addrWithPrefix env log sched ctx addr.bytes (addr.bytes.length * 8)
    match r.ret.err, r.ret.network with
    | some _, _ => ⟨none, mn, r.log⟩
    | none, some network =>
      ⟨some network, { mn with addrMap := mn.addrMap.Store addr network }, r.log⟩
    | none, none => ⟨none, mn, r.log⟩

/-! ## The `Network` methods of the composite -/

/-- The method `multiNetwork.Tell`. -/
def multiNetwork.Tell (mn : multiNetwork) (env : Constituents) (log : List Event)
    (sched : List Nat) (ctx : Context) (dst : Addr) (data : List Nat) : Result (Option Error) :=
  let r := mn.whichNetwork env log sched ctx dst
  match r.ret with
  | none => ⟨some Error.ErrAddrUnreachable, r.mn, r.log⟩
  | some network => ⟨env.Tell network r.log ctx dst data, r.mn, r.log ++ [Event.Tell network dst data]⟩

/-- The loop of `multiNetwork.OnRecv` over the remaining constituents. -/
def onRecvLoop (fn : RecvFunc) : List Network → List Event → List Event
  | [], log => log
  | n :: rest, log => onRecvLoop fn rest (log ++ [Event.OnRecv n fn])

/-- The method `multiNetwork.OnRecv`. -/
def multiNetwork.OnRecv (mn : multiNetwork) (log : List Event) (fn : RecvFunc) : Result Unit :=
  ⟨(), mn, onRecvLoop fn mn.networks log⟩

/-- The method `multiNetwork.FindAddr`. -/
def multiNetwork.FindAddr (mn : multiNetwork) (env : Constituents) (log : List Event)
    (sched : List Nat) (ctx : Context) (pfx : List Nat) (nbits : Int) :
    Result (Addr × Option Error) :=
  let r := mn.addrWithPrefix env log sched ctx pfx nbits
  ⟨(r.ret.addr, r.ret.err), r.mn, r.log⟩

/-- The method `multiNetwork.LookupPublicKey`. -/
def multiNetwork.LookupPublicKey (mn : multiNetwork) (env : Constituents) (log : List Event)
    (sched : List Nat) (ctx : Context) (target : Addr) :
    Result (Option PublicKey × Option Error) :=
  let r := mn.whichNetwork env log sched ctx target
  match r.ret with
  | none => ⟨(none, some Error.ErrAddrUnreachable), r.mn, r.log⟩
  | some network =>
    ⟨env.LookupPublicKey network r.log ctx target, r.mn,
      r.log ++ [Event.LookupPublicKey network target]⟩

/-- The method `multiNetwork.MTU`.  The result of `whichNetwork` is used without a nil
check, so the call `ntwk.MTU` panics when it is nil. -/
def multiNetwork.MTU (mn : multiNetwork) (env : Constituents) (log : List Event)
    (sched : List Nat) (ctx : Context) (target : Addr) : Result (Except Panic Int) :=
  let r := mn.whichNetwork env log sched ctx target
  match r.ret with
  | none => ⟨Except.error Panic.nilDereference, r.mn, r.log⟩
  | some ntwk => ⟨Except.ok (env.MTU ntwk r.log ctx target), r.mn, r.log ++ [Event.MTU ntwk target]⟩

/-- The variables of the loop of `multiNetwork.Close`: the named result `retErr`, the call
log, and what was written with `logrus.Error`. -/
structure CloseState where
  retErr : Option Error
  log : List Event
  logged : List Error

/-- The loop of `multiNetwork.Close` over the remaining constituents. -/
def closeLoop (env : Constituents) : List Network → CloseState → CloseState
  | [], st => st
  | n :: rest, st =>
    match env.Close n st.log with
    | some err =>
      closeLoop env rest
        { retErr := if st.retErr = none then some err else st.retErr
          log := st.log ++ [Event.Close n]
          logged := st.logged ++ [err] }
    | none => closeLoop env rest { st with log := st.log ++ [Event.Close n] }

/-- The method `multiNetwork.Close`. -/
def multiNetwork.Close (mn : multiNetwork) (env : Constituents) (log : List Event) :
    Result (Option Error) × List Error :=
  let st := closeLoop env mn.networks ⟨none, log, []⟩
  (⟨st.retErr, mn, st.log⟩, st.logged)

/-! ## Observing the call log -/

/-- Whether the event is a call of `FindAddr`. -/
def Event.isFindAddr : Event → Bool
  | Event.FindAddr _ _ _ => true
  | _ => false

/-- Whether the event is a call of `Tell`. -/
def Event.isTell : Event → Bool
  | Event.Tell _ _ _ => true
  | _ => false

/-- Whether the event is a call of `LookupPublicKey`. -/
def Event.isLookupPublicKey : Event → Bool
  | Event.LookupPublicKey _ _ => true
  | _ => false

/-- The callback installed on constituent `n`: the argument of the last `OnRecv` call made
on it, if there was one. -/
def installed (log : List Event) (n : Network) : Option RecvFunc :=
  log.foldl
    (fun cur e =>
      match e with
      | Event.OnRecv m fn => if m = n then some fn else cur
      | _ => cur)
    none

/-- What the `Close` of the constituent at index `i` returns when `multiNetwork.Close` calls
it, that is after the constituents before it have been closed (`none` past the end). -/
def closeReturn (env : Constituents) (networks : List Network) (log : List Event) (i : Nat) :
    Option Error :=
  match networks[i]? with
  | some n => env.Close n (log ++ (networks.take i).map Event.Close)
  | none => none

/-! ## Sequences of operations -/

/-- The composite together with the call log of its constituents. -/
structure World where
  mn : multiNetwork
  log : List Event

/-- One operation on the composite, with its arguments and, where it may fan out, the
completion order of the goroutines. -/
inductive Op where
  | Tell (sched : List Nat) (ctx : Context) (dst : Addr) (data : List Nat)
  | OnRecv (fn : RecvFunc)
  | FindAddr (sched : List Nat) (ctx : Context) (pfx : List Nat) (nbits : Int)
  | LookupPublicKey (sched : List Nat) (ctx : Context) (target : Addr)
  | MTU (sched : List Nat) (ctx : Context) (target : Addr)
  | Close
  | whichNetwork (sched : List Nat) (ctx : Context) (addr : Addr)
deriving DecidableEq, Repr

/-- The effect of one operation on the composite and the call log, when it runs from call to
return with no other caller active. -/
def Op.run (env : Constituents) (w : World) : Op → World
  | Op.Tell sched ctx dst data =>
    let r := w.mn.Tell env w.log sched ctx dst data
    ⟨r.mn, r.log⟩
  | Op.OnRecv fn =>
    let r := w.mn.OnRecv w.log fn
    ⟨r.mn, r.log⟩
  | Op.FindAddr sched ctx pfx nbits =>
    let r := w.mn.FindAddr env w.log sched ctx pfx nbits
    ⟨r.mn, r.log⟩
  | Op.LookupPublicKey sched ctx target =>
    let r := w.mn.LookupPublicKey env w.log sched ctx target
    ⟨r.mn, r.log⟩
  | Op.MTU sched ctx target =>
    let r := w.mn.MTU env w.log sched ctx target
    ⟨r.mn, r.log⟩
  | Op.Close =>
    let r := w.mn.Close env w.log
    ⟨r.1.mn, r.1.log⟩
  | Op.whichNetwork sched ctx addr =>
    let r := w.mn.whichNetwork env w.log sched ctx addr
    ⟨r.mn, r.log⟩

/-- The effect of a sequence of operations that do not overlap in time. -/
def runOps (env : Constituents) (w : World) (ops : List Op) : World :=
  ops.foldl (Op.run env) w

/-! ## Overlapping callers -/

/-- The address whose owner the operation asks `whichNetwork` for, with the completion order
and the context of that call; `none` for the operations that do not call `whichNetwork`. -/
def Op.resolves : Op → Option (List Nat × Context × Addr)
  | Op.Tell sched ctx dst _ => some (sched, ctx, dst)
  | Op.LookupPublicKey sched ctx target => some (sched, ctx, target)
  | Op.MTU sched ctx target => some (sched, ctx, target)
  | Op.whichNetwork sched ctx addr => some (sched, ctx, addr)
  | _ => none

/-- The call log after the part of the operation that follows `whichNetwork`, whose result
is `r`: the delegated call on the constituent when `r` is not nil, nothing otherwise. -/
def Op.delegate (log : List Event) : Op → Option Network → List Event
  | Op.Tell _ _ dst data, some network => log ++ [Event.Tell network dst data]
  | Op.LookupPublicKey _ _ target, some network => log ++ [Event.LookupPublicKey network target]
  | Op.MTU _ _ target, some ntwk => log ++ [Event.MTU ntwk target]
  | _, _ => log

/-- How far a call of an operation has got.  `whichNetwork` reads and writes the shared
`addrMap` without holding a lock, so another caller can run between its `Load`, its call of
`addrWithPrefix` and its `Store`. -/
inductive Caller where
  /-- The operation has been called and has not touched the composite yet. -/
  | start (op : Op)
  /-- Its `whichNetwork` has done `Load` and found no entry. -/
  | missed (op : Op) (sched : List Nat) (ctx : Context) (addr : Addr)
  /-- Its `addrWithPrefix` has returned `network` with a nil error; `Store` is still to come. -/
  | found (op : Op) (addr : Addr) (network : Network)
  /-- Its `whichNetwork` has returned `r`; the delegated call is still to come. -/
  | resolved (op : Op) (r : Option Network)
  /-- The operation has returned. -/
  | done
deriving DecidableEq, Repr

/-- The next step of a caller.  The fan-out of `addrWithPrefix` is one step: it does not
touch the cache. -/
def Caller.step (env : Constituents) (w : World) : Caller → Caller × World
  | Caller.start op =>
    match op.resolves with
    | none => (Caller.done, op.run env w)
    | some (sched, ctx, addr) =>
      match w.mn.addrMap.Load addr with
      | some x => (Caller.resolved op (some x), w)
      | none => (Caller.missed op sched ctx addr, w)
  | Caller.missed op sched ctx addr =>
    let r := w.mn.addrWithPrefix env w.log sched ctx addr.bytes (addr.bytes.length * 8)
    match r.ret.err, r.ret.network with
    | some _, _ => (Caller.resolved op none, ⟨w.mn, r.log⟩)
    | none, some network => (Caller.found op addr network, ⟨w.mn, r.log⟩)
    | none, none => (Caller.resolved op none, ⟨w.mn, r.log⟩)
  | Caller.found op addr network =>
    (Caller.resolved op (some network),
      ⟨{ w.mn with addrMap := w.mn.addrMap.Store addr network }, w.log⟩)
  | Caller.resolved op r => (Caller.done, ⟨w.mn, op.delegate w.log r⟩)
  | Caller.done => (Caller.done, w)

/-- The composite, the call log and the calls in progress. -/
structure Racing where
  world : World
  callers : List Caller

/-- The caller of index `k` takes its next step. -/
def Racing.step (env : Constituents) (st : Racing) (k : Nat) : Racing :=
  match st.callers[k]? with
  | none => st
  | some c => ⟨(c.step env st.world).2, st.callers.set k (c.step env st.world).1⟩

/-- The callers take steps in the order of `picks`. -/
def Racing.run (env : Constituents) (st : Racing) (picks : List Nat) : Racing :=
  picks.foldl (Racing.step env) st

/-- A fresh composite on which the operations `ops` have all been called and none has taken
a step yet; `log` holds the calls made on the constituents before. -/
def Racing.start (networks : List Network) (log : List Event) (ops : List Op) : Racing :=
  ⟨⟨NewMultiNetwork networks, log⟩, ops.map Caller.start⟩

/-! ## Example inputs -/

/-- An address used in the examples. -/
def addrA : Addr := ⟨List.replicate 32 7⟩

/-- Constituents whose `FindAddr` honours cancellation: it returns an error when its context
is done and otherwise finds the address spelled by the bytes it is given.  `Close` fails on
constituent `21` only. -/
def cancelAware : Constituents where
  Tell := fun _ _ _ _ _ => none
  MTU := fun _ _ _ _ => 1200
  LookupPublicKey := fun n _ _ _ => (some n, none)
  FindAddr := fun _ _ ctx pfx _ =>
    if ctx.done then (Addr.zero, some (Error.constituent 1)) else (⟨pfx⟩, none)
  Close := fun n _ => if n = 21 then some (Error.constituent 2) else none

/-- Constituents that cannot discover anything. -/
def noDiscovery : Constituents where
  Tell := fun _ _ _ _ _ => none
  MTU := fun _ _ _ _ => 1200
  LookupPublicKey := fun n _ _ _ => (some n, none)
  FindAddr := fun _ _ _ _ _ => (Addr.zero, some (Error.constituent 3))
  Close := fun _ _ => none

theorem AddrMap.Load_Store_self (m : AddrMap) (addr : Addr) (network : Network) :
    (m.Store addr network).Load addr = some network := by
  simp [AddrMap.Load, AddrMap.Store]

theorem completionOrder_perm {α : Type} (l : List α) (sched : List Nat) :
    (completionOrder l sched).Perm l := by
  induction l generalizing sched with
  | nil => simp [completionOrder]
  | cons g rest ih =>
    have hlen : (completionOrder rest sched.tail).length = rest.length := (ih sched.tail).length_eq
    have hle : sched.headD 0 % (rest.length + 1) ≤ (completionOrder rest sched.tail).length := by
      rw [hlen]; exact Nat.lt_succ_iff.mp (Nat.mod_lt _ (Nat.succ_pos _))
    exact (List.perm_insertIdx g _ hle).trans ((ih sched.tail).cons g)

theorem mem_completionOrder {α : Type} (l : List α) (sched : List Nat) (g : α) :
    g ∈ completionOrder l sched ↔ g ∈ l :=
  (completionOrder_perm l sched).mem_iff

/-! ## The goroutines -/

theorem foldl_goroutine_addrs_length (env : Constituents) (pfx : List Nat) (nbits : Int)
    (l : List (Nat × Network)) (st : FanOut) :
    (l.foldl (goroutine env pfx nbits) st).addrs.length = st.addrs.length := by
  induction l generalizing st with
  | nil => rfl
  | cons g l ih => rw [List.foldl_cons, ih]; simp [goroutine]

theorem foldl_goroutine_errs_length (env : Constituents) (pfx : List Nat) (nbits : Int)
    (l : List (Nat × Network)) (st : FanOut) :
    (l.foldl (goroutine env pfx nbits) st).errs.length = st.errs.length := by
  induction l generalizing st with
  | nil => rfl
  | cons g l ih => rw [List.foldl_cons, ih]; simp [goroutine]

theorem foldl_goroutine_log (env : Constituents) (pfx : List Nat) (nbits : Int)
    (l : List (Nat × Network)) (st : FanOut) :
    (l.foldl (goroutine env pfx nbits) st).log
      = st.log ++ l.map (fun g => Event.FindAddr g.2 pfx nbits) := by
  induction l generalizing st with
  | nil => simp
  | cons g l ih => rw [List.foldl_cons, ih]; simp [goroutine]

/-- A slot that no remaining goroutine owns keeps its value. -/
theorem foldl_goroutine_untouched (env : Constituents) (pfx : List Nat) (nbits : Int)
    (l : List (Nat × Network)) (st : FanOut) (i : Nat) (h : ∀ g ∈ l, g.1 ≠ i) :
    (l.foldl (goroutine env pfx nbits) st).addrs[i]? = st.addrs[i]? ∧
    (l.foldl (goroutine env pfx nbits) st).errs[i]? = st.errs[i]? := by
  induction l generalizing st with
  | nil => exact ⟨rfl, rfl⟩
  | cons g l ih =>
    have hg : g.1 ≠ i := h g (List.mem_cons_self _ _)
    have := ih (goroutine env pfx nbits st g) (fun q hq => h q (List.mem_cons_of_mem _ hq))
    rw [List.foldl_cons, this.1, this.2]
    simp [goroutine, List.getElem?_set_ne hg]

/-- Every slot owned by some goroutine holds, at the end, what a `FindAddr` call on its
constituent returned; the call was made after the calls logged so far and maybe more. -/
theorem foldl_goroutine_slot (env : Constituents) (networks : List Network) (pfx : List Nat)
    (nbits : Int) (l : List (Nat × Network)) (st : FanOut) (i : Nat)
    (hl : ∀ g ∈ l, networks[g.1]? = some g.2) (hi : ∃ g ∈ l, g.1 = i)
    (ha : i < st.addrs.length) (he : i < st.errs.length) :
    ∃ network evs c, networks[i]? = some network ∧
      (l.foldl (goroutine env pfx nbits) st).addrs[i]?
        = some (env.FindAddr network (st.log ++ evs) c pfx nbits).1 ∧
      (l.foldl (goroutine env pfx nbits) st).errs[i]?
        = some (env.FindAddr network (st.log ++ evs) c pfx nbits).2 := by
  induction l generalizing st with
  | nil => obtain ⟨g, hg, _⟩ := hi; cases hg
  | cons g l ih =>
    rw [List.foldl_cons]
    by_cases hlater : ∃ q ∈ l, q.1 = i
    · obtain ⟨network, evs, c, h1, h2, h3⟩ :=
        ih (goroutine env pfx nbits st g) (fun q hq => hl q (List.mem_cons_of_mem _ hq))
          hlater (by simpa [goroutine] using ha) (by simpa [goroutine] using he)
      refine ⟨network, Event.FindAddr g.2 pfx nbits :: evs, c, h1, ?_, ?_⟩
      · rw [h2]; simp [goroutine]
      · rw [h3]; simp [goroutine]
    · have hnone : ∀ q ∈ l, q.1 ≠ i := fun q hq hqi => hlater ⟨q, hq, hqi⟩
      have hgi : g.1 = i := by
        obtain ⟨q, hq, hqi⟩ := hi
        rcases List.mem_cons.mp hq with rfl | hq
        · exact hqi
        · exact absurd hqi (hnone q hq)
      have hkeep := foldl_goroutine_untouched env pfx nbits l (goroutine env pfx nbits st g) i hnone
      refine ⟨g.2, [], ⟨st.cancelled⟩, ?_, ?_, ?_⟩
      · rw [← hgi]; exact hl g (List.mem_cons_self _ _)
      · rw [hkeep.1]; simp [goroutine, hgi, ha]
      · rw [hkeep.2]; simp [goroutine, hgi, he]

theorem fanOut_addrs_length (env : Constituents) (networks : List Network) (sched : List Nat)
    (ctx : Context) (pfx : List Nat) (nbits : Int) (log : List Event) :
    (fanOut env networks sched ctx pfx nbits log).addrs.length = networks.length := by
  simp [fanOut, foldl_goroutine_addrs_length]

theorem fanOut_errs_length (env : Constituents) (networks : List Network) (sched : List Nat)
    (ctx : Context) (pfx : List Nat) (nbits : Int) (log : List Event) :
    (fanOut env networks sched ctx pfx nbits log).errs.length = networks.length := by
  simp [fanOut, foldl_goroutine_errs_length]

/-- The fan-out calls `FindAddr` once per goroutine and nothing else. -/
theorem fanOut_log (env : Constituents) (networks : List Network) (sched : List Nat)
    (ctx : Context) (pfx : List Nat) (nbits : Int) (log : List Event) :
    (fanOut env networks sched ctx pfx nbits log).log
      = log ++ (completionOrder networks.enum sched).map (fun g => Event.FindAddr g.2 pfx nbits) := by
  simp [fanOut, foldl_goroutine_log]

/-- At `wg.Wait()` slot `i` holds what a `FindAddr` call on `networks[i]` returned, made
somewhere during the fan-out. -/
theorem fanOut_slot (env : Constituents) (networks : List Network) (sched : List Nat)
    (ctx : Context) (pfx : List Nat) (nbits : Int) (log : List Event) (i : Nat)
    (hi : i < networks.length) :
    ∃ network evs c, networks[i]? = some network ∧
      (fanOut env networks sched ctx pfx nbits log).addrs[i]?
        = some (env.FindAddr network (log ++ evs) c pfx nbits).1 ∧
      (fanOut env networks sched ctx pfx nbits log).errs[i]?
        = some (env.FindAddr network (log ++ evs) c pfx nbits).2 := by
  refine foldl_goroutine_slot env networks pfx nbits _ _ i ?_ ?_ (by simpa using hi)
    (by simpa using hi)
  · intro g hg
    rw [mem_completionOrder] at hg
    have := List.mem_enum hg
    rw [List.getElem?_eq_getElem this.1]; exact congrArg some this.2.symm
  · refine ⟨(i, networks[i]), ?_, rfl⟩
    rw [mem_completionOrder]
    exact List.mk_mem_enum_iff_getElem?.mpr (List.getElem?_eq_getElem hi)

/-! ## Result selection -/

theorem scan_eq_some (networks : List Network) (errs : List (Option Error)) (i : Nat)
    (addrs : List Addr) (addr : Addr) (network : Option Network)
    (h : scan networks errs i addrs = some (addr, network)) :
    ∃ k, errs[i + k]? = some none ∧ (∀ j, j < k → errs[i + j]? ≠ some none) ∧
      addrs[k]? = some addr ∧ network = networks[i + k]? := by
  induction addrs generalizing i with
  | nil => simp [scan] at h
  | cons a rest ih =>
    by_cases hi : errs[i]? = some none
    · simp only [scan, hi, Option.some.injEq, Prod.mk.injEq] at h
      exact ⟨0, by simpa using hi, by simp, by simp [h.1], by simp [h.2]⟩
    · have hstep : scan networks errs i (a :: rest) = scan networks errs (i + 1) rest := by
        rw [scan]
        split
        · rename_i heq; exact absurd heq hi
        · rfl
      rw [hstep] at h
      obtain ⟨k, h1, h2, h3, h4⟩ := ih (i + 1) h
      refine ⟨k + 1, ?_, ?_, by simpa using h3, ?_⟩
      · rw [← h1]; congr 1; omega
      · intro j hj
        cases j with
        | zero => simpa using hi
        | succ j =>
          have := h2 j (by omega)
          rwa [show i + (j + 1) = i + 1 + j by omega]
      · rw [h4]; congr 1; omega

theorem scan_eq_none (networks : List Network) (errs : List (Option Error)) (i : Nat)
    (addrs : List Addr) :
    scan networks errs i addrs = none ↔ ∀ k, k < addrs.length → errs[i + k]? ≠ some none := by
  induction addrs generalizing i with
  | nil => simp [scan]
  | cons a rest ih =>
    by_cases hi : errs[i]? = some none
    · simp only [scan, hi]
      constructor
      · intro h; cases h
      · intro h; exact absurd hi (by simpa using h 0 (by simp))
    · have hstep : scan networks errs i (a :: rest) = scan networks errs (i + 1) rest := by
        rw [scan]
        split
        · rename_i heq; exact absurd heq hi
        · rfl
      rw [hstep, ih]
      constructor
      · intro h k hk
        cases k with
        | zero => simpa using hi
        | succ k =>
          have := h k (by simpa using hk)
          rwa [show i + (k + 1) = i + 1 + k by omega]
      · intro h k hk
        have := h (k + 1) (by simpa using hk)
        rwa [show i + (k + 1) = i + 1 + k by omega] at this

theorem addrWithPrefix_mn (mn : multiNetwork) (env : Constituents) (log : List Event)
    (sched : List Nat) (ctx : Context) (pfx : List Nat) (nbits : Int) :
    (mn.addrWithPrefix env log sched ctx pfx nbits).mn = mn := by
  simp only [multiNetwork.addrWithPrefix]
  split <;> rfl

theorem addrWithPrefix_log (mn : multiNetwork) (env : Constituents) (log : List Event)
    (sched : List Nat) (ctx : Context) (pfx : List Nat) (nbits : Int) :
    (mn.addrWithPrefix env log sched ctx pfx nbits).log
      = (fanOut env mn.networks sched ctx pfx nbits log).log := by
  simp only [multiNetwork.addrWithPrefix]
  split <;> rfl

/-- When some slot of `errs` is nil, `addrWithPrefix` returns the slot of lowest index that
is, with the constituent of that index. -/
theorem addrWithPrefix_of_success (mn : multiNetwork) (env : Constituents) (log : List Event)
    (sched : List Nat) (ctx : Context) (pfx : List Nat) (nbits : Int) (i : Nat)
    (h : (fanOut env mn.networks sched ctx pfx nbits log).errs[i]? = some none) :
    ∃ i0 addr network, i0 ≤ i ∧
      (fanOut env mn.networks sched ctx pfx nbits log).errs[i0]? = some none ∧
      (∀ j, j < i0 → (fanOut env mn.networks sched ctx pfx nbits log).errs[j]? ≠ some none) ∧
      (fanOut env mn.networks sched ctx pfx nbits log).addrs[i0]? = some addr ∧
      mn.networks[i0]? = some network ∧
      (mn.addrWithPrefix env log sched ctx pfx nbits).ret = ⟨addr, some network, none⟩ := by
  have hlen := fanOut_errs_length env mn.networks sched ctx pfx nbits log
  have hlen2 := fanOut_addrs_length env mn.networks sched ctx pfx nbits log
  have hi : i < mn.networks.length := by
    rw [← hlen]
    by_contra hc
    rw [List.getElem?_eq_none (Nat.le_of_not_lt hc)] at h
    cases h
  cases hs : scan mn.networks (fanOut env mn.networks sched ctx pfx nbits log).errs 0
      (fanOut env mn.networks sched ctx pfx nbits log).addrs with
  | none =>
    have := (scan_eq_none _ _ _ _).mp hs i (by rw [hlen2]; exact hi)
    rw [Nat.zero_add] at this
    exact absurd h this
  | some p =>
    obtain ⟨addr, network⟩ := p
    obtain ⟨k, h1, h2, h3, h4⟩ := scan_eq_some _ _ _ _ _ _ hs
    simp only [Nat.zero_add] at h1 h2 h4
    have hk : k < mn.networks.length := by
      rw [← hlen]
      by_contra hc
      rw [List.getElem?_eq_none (Nat.le_of_not_lt hc)] at h1
      cases h1
    have hki : k ≤ i := by
      by_contra hc
      exact h2 i (Nat.lt_of_not_le hc) h
    refine ⟨k, addr, mn.networks[k], hki, h1, h2, h3, List.getElem?_eq_getElem hk, ?_⟩
    unfold multiNetwork.addrWithPrefix
    simp only [hs, h4, List.getElem?_eq_getElem hk]

/-- When every slot of `errs` holds an error, `addrWithPrefix` returns the zero address, a
nil network and the error made from the slice `addrs`. -/
theorem addrWithPrefix_of_failure (mn : multiNetwork) (env : Constituents) (log : List Event)
    (sched : List Nat) (ctx : Context) (pfx : List Nat) (nbits : Int)
    (h : ∀ e ∈ (fanOut env mn.networks sched ctx pfx nbits log).errs, e ≠ none) :
    (mn.addrWithPrefix env log sched ctx pfx nbits).ret
      = ⟨Addr.zero, none,
          some (Error.errorsOccurred (fanOut env mn.networks sched ctx pfx nbits log).addrs)⟩ := by
  have hs : scan mn.networks (fanOut env mn.networks sched ctx pfx nbits log).errs 0
      (fanOut env mn.networks sched ctx pfx nbits log).addrs = none := by
    rw [scan_eq_none]
    intro k _ hk
    exact h none (List.getElem?_mem hk) rfl
  unfold multiNetwork.addrWithPrefix
  simp only [hs]

/-- A nil error from `addrWithPrefix` comes with a non-nil network. -/
theorem addrWithPrefix_network_of_no_err (mn : multiNetwork) (env : Constituents)
    (log : List Event) (sched : List Nat) (ctx : Context) (pfx : List Nat) (nbits : Int)
    (h : (mn.addrWithPrefix env log sched ctx pfx nbits).ret.err = none) :
    ∃ network, network ∈ mn.networks ∧
      (mn.addrWithPrefix env log sched ctx pfx nbits).ret.network = some network := by
  by_cases hall : ∀ e ∈ (fanOut env mn.networks sched ctx pfx nbits log).errs, e ≠ none
  · rw [addrWithPrefix_of_failure mn env log sched ctx pfx nbits hall] at h
    cases h
  · push_neg at hall
    obtain ⟨e, he, rfl⟩ := hall
    obtain ⟨i, hi⟩ := List.getElem?_of_mem he
    obtain ⟨i0, addr, network, _, _, _, _, hn, hret⟩ :=
      addrWithPrefix_of_success mn env log sched ctx pfx nbits i hi
    exact ⟨network, List.getElem?_mem hn, by rw [hret]⟩

/-! ## Ownership resolution -/

/-- The three ways `whichNetwork` can go: a cache hit, a failed discovery, or a successful
discovery followed by a store. -/
theorem whichNetwork_cases (mn : multiNetwork) (env : Constituents) (log : List Event)
    (sched : List Nat) (ctx : Context) (addr : Addr) :
    (∃ C, mn.addrMap.Load addr = some C ∧
      mn.whichNetwork env log sched ctx addr = ⟨some C, mn, log⟩) ∨
    (mn.addrMap.Load addr = none ∧
      (mn.addrWithPrefix env log sched ctx addr.bytes (addr.bytes.length * 8)).ret.err ≠ none ∧
      mn.whichNetwork env log sched ctx addr
        = ⟨none, mn, (fanOut env mn.networks sched ctx addr.bytes (addr.bytes.length * 8) log).log⟩) ∨
    (mn.addrMap.Load addr = none ∧ ∃ C, C ∈ mn.networks ∧
      (mn.addrWithPrefix env log sched ctx addr.bytes (addr.bytes.length * 8)).ret.err = none ∧
      (mn.addrWithPrefix env log sched ctx addr.bytes (addr.bytes.length * 8)).ret.network = some C ∧
      mn.whichNetwork env log sched ctx addr
        = ⟨some C, { mn with addrMap := mn.addrMap.Store addr C },
            (fanOut env mn.networks sched ctx addr.bytes (addr.bytes.length * 8) log).log⟩) := by
  cases hload : mn.addrMap.Load addr with
  | some C =>
    left
    exact ⟨C, rfl, by simp only [multiNetwork.whichNetwork, hload]⟩
  | none =>
    right
    have hlog := addrWithPrefix_log mn env log sched ctx addr.bytes (addr.bytes.length * 8)
    cases herr : (mn.addrWithPrefix env log sched ctx addr.bytes (addr.bytes.length * 8)).ret.err with
    | some e =>
      left
      refine ⟨rfl, by simp, ?_⟩
      simp only [multiNetwork.whichNetwork, hload, herr, hlog]
    | none =>
      right
      obtain ⟨C, hC, hnet⟩ := addrWithPrefix_network_of_no_err mn env log sched ctx _ _ herr
      refine ⟨rfl, C, hC, rfl, hnet, ?_⟩
      simp only [multiNetwork.whichNetwork, hload, herr, hnet, hlog]

/-- The events a fan-out adds to the log are `FindAddr` calls. -/
theorem fanOut_log_findAddr (env : Constituents) (networks : List Network) (sched : List Nat)
    (ctx : Context) (pfx : List Nat) (nbits : Int) (log : List Event) :
    ∃ evs, (fanOut env networks sched ctx pfx nbits log).log = log ++ evs ∧
      ∀ e ∈ evs, e.isFindAddr = true := by
  refine ⟨_, fanOut_log env networks sched ctx pfx nbits log, ?_⟩
  intro e he
  obtain ⟨g, _, rfl⟩ := List.mem_map.mp he
  rfl

/-- The only calls `whichNetwork` makes are `FindAddr` calls. -/
theorem whichNetwork_log (mn : multiNetwork) (env : Constituents) (log : List Event)
    (sched : List Nat) (ctx : Context) (addr : Addr) :
    ∃ evs, (mn.whichNetwork env log sched ctx addr).log = log ++ evs ∧
      ∀ e ∈ evs, e.isFindAddr = true := by
  rcases whichNetwork_cases mn env log sched ctx addr with ⟨C, _, h⟩ | ⟨_, _, h⟩ | ⟨_, C, _, _, _, h⟩
  · exact ⟨[], by rw [h]; simp, by simp⟩
  · rw [h]; exact fanOut_log_findAddr env mn.networks sched ctx _ _ log
  · rw [h]; exact fanOut_log_findAddr env mn.networks sched ctx _ _ log

theorem whichNetwork_networks (mn : multiNetwork) (env : Constituents) (log : List Event)
    (sched : List Nat) (ctx : Context) (addr : Addr) :
    (mn.whichNetwork env log sched ctx addr).mn.networks = mn.networks := by
  rcases whichNetwork_cases mn env log sched ctx addr with ⟨C, _, h⟩ | ⟨_, _, h⟩ | ⟨_, C, _, _, _, h⟩ <;>
    rw [h]

/-- On a cache hit `whichNetwork` returns the cached constituent and does nothing else. -/
theorem whichNetwork_of_cached (mn : multiNetwork) (env : Constituents) (log : List Event)
    (sched : List Nat) (ctx : Context) (addr : Addr) (C : Network)
    (h : mn.addrMap.Load addr = some C) :
    mn.whichNetwork env log sched ctx addr = ⟨some C, mn, log⟩ := by
  simp only [multiNetwork.whichNetwork, h]

/-- On a cache miss where every call of the fan-out fails, `whichNetwork` returns nil and
leaves the composite as it was. -/
theorem whichNetwork_of_failure (mn : multiNetwork) (env : Constituents) (log : List Event)
    (sched : List Nat) (ctx : Context) (addr : Addr) (hA : mn.addrMap.Load addr = none)
    (h : ∀ e ∈ (fanOut env mn.networks sched ctx addr.bytes (addr.bytes.length * 8) log).errs,
      e ≠ none) :
    mn.whichNetwork env log sched ctx addr
      = ⟨none, mn, (fanOut env mn.networks sched ctx addr.bytes (addr.bytes.length * 8) log).log⟩ := by
  have hret := addrWithPrefix_of_failure mn env log sched ctx _ _ h
  have hlog := addrWithPrefix_log mn env log sched ctx addr.bytes (addr.bytes.length * 8)
  simp only [multiNetwork.whichNetwork, hA, hret, hlog]

/-! ## C1: result selection of the fan-out -/

/-- C1, the claim as stated fails: two constituents that can both discover the address
(each returns it when its context is not cancelled) and that honour cancellation.  When the
goroutine of the constituent at order 1 completes first, the constituent at order 0 sees the
cancelled context and fails, so resolution selects and caches the constituent at order 1;
when the goroutine at order 0 completes first it is the one selected.  The choice depends on
the completion order. -/
theorem C1_choice_depends_on_completion_order :
    (cancelAware.FindAddr 10 [] ⟨false⟩ addrA.bytes 256).2 = none ∧
    (cancelAware.FindAddr 11 [] ⟨false⟩ addrA.bytes 256).2 = none ∧
    completionOrder [(0, 10), (1, 11)] [0] = [(0, 10), (1, 11)] ∧
    ((NewMultiNetwork [10, 11]).whichNetwork cancelAware [] [0] ⟨false⟩ addrA).ret = some 10 ∧
    completionOrder [(0, 10), (1, 11)] [1] = [(1, 11), (0, 10)] ∧
    ((NewMultiNetwork [10, 11]).whichNetwork cancelAware [] [1] ⟨false⟩ addrA).ret = some 11 ∧
    ((NewMultiNetwork [10, 11]).whichNetwork cancelAware [] [1] ⟨false⟩ addrA).mn.addrMap.Load addrA
      = some 11 := by
  decide

/-- C1, amended: for every list of constituents, query and completion order, if the
`FindAddr` call of some constituent returns no error then `addrWithPrefix`, and with it the
composite's `FindAddr`, returns with a nil error the address returned by the call of the
constituent of smallest index whose call returned no error, together with that constituent.
If the answers of the constituents to the query do not change during the fan-out (they depend
neither on the calls made since it began nor on the cancellation of the context) the result is
the same for every completion order.  If the call of the constituent at order 0 returns no
error, resolving an uncached address selects and caches the constituent at order 0. -/
theorem C1_lowest_index_success (env : Constituents) (mn : multiNetwork) (log : List Event)
    (sched : List Nat) (ctx : Context) (pfx : List Nat) (nbits : Int) :
    (∀ i : Nat, (fanOut env mn.networks sched ctx pfx nbits log).errs[i]? = some none →
      ∃ i0 addr network evs c, i0 ≤ i ∧ mn.networks[i0]? = some network ∧
        env.FindAddr network (log ++ evs) c pfx nbits = (addr, none) ∧
        (fanOut env mn.networks sched ctx pfx nbits log).errs[i0]? = some none ∧
        (fanOut env mn.networks sched ctx pfx nbits log).addrs[i0]? = some addr ∧
        (∀ j : Nat, j < i0 → (fanOut env mn.networks sched ctx pfx nbits log).errs[j]? ≠ some none) ∧
        (mn.addrWithPrefix env log sched ctx pfx nbits).ret = ⟨addr, some network, none⟩ ∧
        (mn.FindAddr env log sched ctx pfx nbits).ret = (addr, none)) ∧
    ((∀ n evs c, env.FindAddr n (log ++ evs) c pfx nbits = env.FindAddr n log ctx pfx nbits) →
      ∀ sched2, (mn.addrWithPrefix env log sched2 ctx pfx nbits).ret
        = (mn.addrWithPrefix env log sched ctx pfx nbits).ret) ∧
    (∀ A network, mn.addrMap.Load A = none → mn.networks[0]? = some network →
      (fanOut env mn.networks sched ctx A.bytes (A.bytes.length * 8) log).errs[0]? = some none →
      (mn.whichNetwork env log sched ctx A).ret = some network ∧
      (mn.whichNetwork env log sched ctx A).mn.addrMap.Load A = some network) := by
  have key : ∀ i : Nat, (fanOut env mn.networks sched ctx pfx nbits log).errs[i]? = some none →
      ∃ i0 addr network evs c, i0 ≤ i ∧ mn.networks[i0]? = some network ∧
        env.FindAddr network (log ++ evs) c pfx nbits = (addr, none) ∧
        (fanOut env mn.networks sched ctx pfx nbits log).errs[i0]? = some none ∧
        (fanOut env mn.networks sched ctx pfx nbits log).addrs[i0]? = some addr ∧
        (∀ j : Nat, j < i0 → (fanOut env mn.networks sched ctx pfx nbits log).errs[j]? ≠ some none) ∧
        (mn.addrWithPrefix env log sched ctx pfx nbits).ret = ⟨addr, some network, none⟩ ∧
        (mn.FindAddr env log sched ctx pfx nbits).ret = (addr, none) := by
    intro i hi
    obtain ⟨i0, addr, network, hle, herr, hmin, haddr, hnet, hret⟩ :=
      addrWithPrefix_of_success mn env log sched ctx pfx nbits i hi
    have hlt : i0 < mn.networks.length := by
      by_contra hc
      rw [List.getElem?_eq_none (Nat.le_of_not_lt hc)] at hnet
      cases hnet
    obtain ⟨network2, evs, c, h1, h2, h3⟩ := fanOut_slot env mn.networks sched ctx pfx nbits log i0 hlt
    rw [hnet] at h1
    cases h1
    rw [haddr] at h2
    rw [herr] at h3
    refine ⟨i0, addr, network, evs, c, hle, hnet, ?_, herr, haddr, hmin, hret, ?_⟩
    · exact Prod.ext (Option.some.inj h2).symm (Option.some.inj h3).symm
    · simp only [multiNetwork.FindAddr, hret]
  refine ⟨key, ?_, ?_⟩
  · intro hstable sched2
    have slots : ∀ s, (fanOut env mn.networks s ctx pfx nbits log).addrs
          = mn.networks.map (fun n => (env.FindAddr n log ctx pfx nbits).1) ∧
        (fanOut env mn.networks s ctx pfx nbits log).errs
          = mn.networks.map (fun n => (env.FindAddr n log ctx pfx nbits).2) := by
      intro s
      constructor
      · apply List.ext_getElem? 
        intro i
        by_cases hi : i < mn.networks.length
        · obtain ⟨network, evs, c, h1, h2, _⟩ := fanOut_slot env mn.networks s ctx pfx nbits log i hi
          rw [h2, hstable, List.getElem?_map, h1]; rfl
        · have hge := Nat.le_of_not_lt hi
          rw [List.getElem?_eq_none (by rw [fanOut_addrs_length]; exact hge),
            List.getElem?_eq_none (by rw [List.length_map]; exact hge)]
      · apply List.ext_getElem? 
        intro i
        by_cases hi : i < mn.networks.length
        · obtain ⟨network, evs, c, h1, _, h3⟩ := fanOut_slot env mn.networks s ctx pfx nbits log i hi
          rw [h3, hstable, List.getElem?_map, h1]; rfl
        · have hge := Nat.le_of_not_lt hi
          rw [List.getElem?_eq_none (by rw [fanOut_errs_length]; exact hge),
            List.getElem?_eq_none (by rw [List.length_map]; exact hge)]
    simp only [multiNetwork.addrWithPrefix, (slots sched2).1, (slots sched2).2, (slots sched).1,
      (slots sched).2]
    split <;> rfl
  · intro A network hmiss hnet0 h0
    obtain ⟨i0, addr, network2, hle, _, _, _, hnet, hret⟩ :=
      addrWithPrefix_of_success mn env log sched ctx A.bytes (A.bytes.length * 8) 0 h0
    have hz : i0 = 0 := Nat.le_zero.mp hle
    subst hz
    rw [hnet0] at hnet
    cases hnet
    have hlog := addrWithPrefix_log mn env log sched ctx A.bytes (A.bytes.length * 8)
    have hw : mn.whichNetwork env log sched ctx A
        = ⟨some network, { mn with addrMap := mn.addrMap.Store A network },
            (fanOut env mn.networks sched ctx A.bytes (A.bytes.length * 8) log).log⟩ := by
      simp only [multiNetwork.whichNetwork, hmiss, hret, hlog]
    rw [hw]
    exact ⟨rfl, AddrMap.Load_Store_self _ _ _⟩

theorem C1_lowest_index_success_witness :
    (fanOut cancelAware (NewMultiNetwork [10, 11]).networks [1] ⟨false⟩ addrA.bytes 256 []).errs[1]?
      = some none ∧
    ∃ i0 addr network evs c, i0 ≤ 1 ∧ (NewMultiNetwork [10, 11]).networks[i0]? = some network ∧
      cancelAware.FindAddr network ([] ++ evs) c addrA.bytes 256 = (addr, none) ∧
      (fanOut cancelAware (NewMultiNetwork [10, 11]).networks [1] ⟨false⟩ addrA.bytes 256 []).errs[i0]?
        = some none ∧
      (fanOut cancelAware (NewMultiNetwork [10, 11]).networks [1] ⟨false⟩ addrA.bytes 256 []).addrs[i0]?
        = some addr ∧
      (∀ j : Nat, j < i0 →
        (fanOut cancelAware (NewMultiNetwork [10, 11]).networks [1] ⟨false⟩ addrA.bytes 256 []).errs[j]?
          ≠ some none) ∧
      ((NewMultiNetwork [10, 11]).addrWithPrefix cancelAware [] [1] ⟨false⟩ addrA.bytes 256).ret
        = ⟨addr, some network, none⟩ ∧
      ((NewMultiNetwork [10, 11]).FindAddr cancelAware [] [1] ⟨false⟩ addrA.bytes 256).ret
        = (addr, none) :=
  ⟨by decide,
    (C1_lowest_index_success cancelAware (NewMultiNetwork [10, 11]) [] [1] ⟨false⟩ addrA.bytes 256).1
      1 (by decide)⟩

/-! ## C2, C3, C7, C8: what happens when ownership cannot be resolved -/

/-- C2: for an address that is not cached, when the `FindAddr` call of every constituent
returns an error, `addrWithPrefix` returns the zero address, a nil network and an error built
from the slice `addrs`, which has exactly one entry per constituent, the entry at each index
being the address returned by a failed call on the constituent of that index; `whichNetwork`
returns nil and the composite, hence its cache, is unchanged, so the address still has no
entry. -/
theorem C2_all_fail_aggregation (env : Constituents) (mn : multiNetwork) (log : List Event)
    (sched : List Nat) (ctx : Context) (A : Addr) (hA : mn.addrMap.Load A = none)
    (hfail : ∀ e ∈ (fanOut env mn.networks sched ctx A.bytes (A.bytes.length * 8) log).errs,
      e ≠ none) :
    (mn.addrWithPrefix env log sched ctx A.bytes (A.bytes.length * 8)).ret
      = ⟨Addr.zero, none, some (Error.errorsOccurred
          (fanOut env mn.networks sched ctx A.bytes (A.bytes.length * 8) log).addrs)⟩ ∧
    (fanOut env mn.networks sched ctx A.bytes (A.bytes.length * 8) log).addrs.length
      = mn.networks.length ∧
    (∀ i : Nat, i < mn.networks.length → ∃ network evs c, mn.networks[i]? = some network ∧
      (fanOut env mn.networks sched ctx A.bytes (A.bytes.length * 8) log).addrs[i]?
        = some (env.FindAddr network (log ++ evs) c A.bytes (A.bytes.length * 8)).1 ∧
      (env.FindAddr network (log ++ evs) c A.bytes (A.bytes.length * 8)).2 ≠ none) ∧
    (mn.whichNetwork env log sched ctx A).ret = none ∧
    (mn.whichNetwork env log sched ctx A).mn = mn ∧
    (mn.whichNetwork env log sched ctx A).mn.addrMap.Load A = none := by
  have hw := whichNetwork_of_failure mn env log sched ctx A hA hfail
  refine ⟨addrWithPrefix_of_failure mn env log sched ctx _ _ hfail, fanOut_addrs_length _ _ _ _ _ _ _,
    ?_, by rw [hw], by rw [hw], by rw [hw]; exact hA⟩
  intro i hi
  obtain ⟨network, evs, c, h1, h2, h3⟩ :=
    fanOut_slot env mn.networks sched ctx A.bytes (A.bytes.length * 8) log i hi
  exact ⟨network, evs, c, h1, h2, hfail _ (List.getElem?_mem h3)⟩

theorem C2_all_fail_aggregation_witness :
    ((NewMultiNetwork [10, 11]).addrWithPrefix noDiscovery [] [1] ⟨false⟩ addrA.bytes
        (addrA.bytes.length * 8)).ret
      = ⟨Addr.zero, none, some (Error.errorsOccurred [Addr.zero, Addr.zero])⟩ ∧
    ((NewMultiNetwork [10, 11]).whichNetwork noDiscovery [] [1] ⟨false⟩ addrA).ret = none ∧
    ((NewMultiNetwork [10, 11]).whichNetwork noDiscovery [] [1] ⟨false⟩ addrA).mn
      = NewMultiNetwork [10, 11] :=
  have h := C2_all_fail_aggregation noDiscovery (NewMultiNetwork [10, 11]) [] [1] ⟨false⟩ addrA
    (by decide) (by decide)
  ⟨h.1, h.2.2.2.1, h.2.2.2.2.1⟩

theorem isTell_of_isFindAddr (e : Event) (h : e.isFindAddr = true) : e.isTell = false := by
  cases e <;> simp_all [Event.isFindAddr, Event.isTell]

theorem isLookupPublicKey_of_isFindAddr (e : Event) (h : e.isFindAddr = true) :
    e.isLookupPublicKey = false := by
  cases e <;> simp_all [Event.isFindAddr, Event.isLookupPublicKey]

/-- C3: for every composite, payload and address that is not cached and for which the
`FindAddr` call of every constituent returns an error (as is the case when there is no
constituent at all), `Tell` returns `ErrAddrUnreachable`, and none of the calls it makes on
the constituents is a `Tell`: no constituent receives the payload. -/
theorem C3_unaddressable_send (env : Constituents) (mn : multiNetwork) (log : List Event)
    (sched : List Nat) (ctx : Context) (A : Addr) (data : List Nat)
    (hA : mn.addrMap.Load A = none)
    (hfail : ∀ e ∈ (fanOut env mn.networks sched ctx A.bytes (A.bytes.length * 8) log).errs,
      e ≠ none) :
    (mn.Tell env log sched ctx A data).ret = some Error.ErrAddrUnreachable ∧
    ∃ evs, (mn.Tell env log sched ctx A data).log = log ++ evs ∧ ∀ e ∈ evs, e.isTell = false := by
  have hw := whichNetwork_of_failure mn env log sched ctx A hA hfail
  obtain ⟨evs, hlog, hevs⟩ := fanOut_log_findAddr env mn.networks sched ctx A.bytes
    (A.bytes.length * 8) log
  have ht : mn.Tell env log sched ctx A data
      = ⟨some Error.ErrAddrUnreachable, mn,
          (fanOut env mn.networks sched ctx A.bytes (A.bytes.length * 8) log).log⟩ := by
    simp only [multiNetwork.Tell, hw]
  rw [ht]
  exact ⟨rfl, evs, hlog, fun e he => isTell_of_isFindAddr e (hevs e he)⟩

theorem C3_unaddressable_send_witness :
    ((NewMultiNetwork []).Tell cancelAware [] [] ⟨false⟩ addrA [1, 2, 3]).ret
      = some Error.ErrAddrUnreachable ∧
    ((NewMultiNetwork [10, 11]).Tell noDiscovery [] [1] ⟨false⟩ addrA [1, 2, 3]).ret
      = some Error.ErrAddrUnreachable ∧
    ∃ evs, ((NewMultiNetwork [10, 11]).Tell noDiscovery [] [1] ⟨false⟩ addrA [1, 2, 3]).log
        = [] ++ evs ∧ ∀ e ∈ evs, e.isTell = false :=
  ⟨(C3_unaddressable_send cancelAware (NewMultiNetwork []) [] [] ⟨false⟩ addrA [1, 2, 3]
      (by decide) (by decide)).1,
    C3_unaddressable_send noDiscovery (NewMultiNetwork [10, 11]) [] [1] ⟨false⟩ addrA [1, 2, 3]
      (by decide) (by decide)⟩

/-- C7, what the code does: for an address that is not cached and for which the `FindAddr`
call of every constituent returns an error, `MTU` calls a method on the nil result of
`whichNetwork` and panics; no value and no error is returned to the caller. -/
theorem C7_MTU_panics_when_unresolved (env : Constituents) (mn : multiNetwork) (log : List Event)
    (sched : List Nat) (ctx : Context) (A : Addr) (hA : mn.addrMap.Load A = none)
    (hfail : ∀ e ∈ (fanOut env mn.networks sched ctx A.bytes (A.bytes.length * 8) log).errs,
      e ≠ none) :
    (mn.MTU env log sched ctx A).ret = Except.error Panic.nilDereference := by
  have hw := whichNetwork_of_failure mn env log sched ctx A hA hfail
  simp only [multiNetwork.MTU, hw]

theorem C7_MTU_panics_when_unresolved_witness :
    ((NewMultiNetwork []).MTU cancelAware [] [] ⟨false⟩ addrA).ret
      = Except.error Panic.nilDereference :=
  C7_MTU_panics_when_unresolved cancelAware (NewMultiNetwork []) [] [] ⟨false⟩ addrA
    (by decide) (by decide)

/-- C8: when `whichNetwork` returns nil for the address, `LookupPublicKey` returns a nil key
and `ErrAddrUnreachable` and makes no `LookupPublicKey` call on any constituent; when it
returns a constituent, `LookupPublicKey` returns exactly the pair that this constituent's
`LookupPublicKey` returns, and that call is the only `LookupPublicKey` call it makes. -/
theorem C8_LookupPublicKey (env : Constituents) (mn : multiNetwork) (log : List Event)
    (sched : List Nat) (ctx : Context) (A : Addr) :
    ((mn.whichNetwork env log sched ctx A).ret = none →
      (mn.LookupPublicKey env log sched ctx A).ret = (none, some Error.ErrAddrUnreachable) ∧
      ∃ evs, (mn.LookupPublicKey env log sched ctx A).log = log ++ evs ∧
        ∀ e ∈ evs, e.isLookupPublicKey = false) ∧
    (∀ C, (mn.whichNetwork env log sched ctx A).ret = some C →
      (mn.LookupPublicKey env log sched ctx A).ret
        = env.LookupPublicKey C (mn.whichNetwork env log sched ctx A).log ctx A ∧
      ∃ evs, (mn.whichNetwork env log sched ctx A).log = log ++ evs ∧
        (mn.LookupPublicKey env log sched ctx A).log
          = log ++ evs ++ [Event.LookupPublicKey C A] ∧
        ∀ e ∈ evs, e.isLookupPublicKey = false) := by
  obtain ⟨evs, hlog, hevs⟩ := whichNetwork_log mn env log sched ctx A
  constructor
  · intro h
    have hl : mn.LookupPublicKey env log sched ctx A
        = ⟨(none, some Error.ErrAddrUnreachable), (mn.whichNetwork env log sched ctx A).mn,
            (mn.whichNetwork env log sched ctx A).log⟩ := by
      simp only [multiNetwork.LookupPublicKey, h]
    rw [hl]
    exact ⟨rfl, evs, hlog, fun e he => isLookupPublicKey_of_isFindAddr e (hevs e he)⟩
  · intro C h
    have hl : mn.LookupPublicKey env log sched ctx A
        = ⟨env.LookupPublicKey C (mn.whichNetwork env log sched ctx A).log ctx A,
            (mn.whichNetwork env log sched ctx A).mn,
            (mn.whichNetwork env log sched ctx A).log ++ [Event.LookupPublicKey C A]⟩ := by
      simp only [multiNetwork.LookupPublicKey, h]
    rw [hl]
    exact ⟨rfl, evs, hlog, by rw [hlog],
      fun e he => isLookupPublicKey_of_isFindAddr e (hevs e he)⟩

theorem C8_LookupPublicKey_witness :
    ((NewMultiNetwork [10, 11]).LookupPublicKey cancelAware [] [1] ⟨false⟩ addrA).ret
      = (some 11, none) ∧
    ((NewMultiNetwork [10, 11]).LookupPublicKey noDiscovery [] [1] ⟨false⟩ addrA).ret
      = (none, some Error.ErrAddrUnreachable) :=
  ⟨((C8_LookupPublicKey cancelAware (NewMultiNetwork [10, 11]) [] [1] ⟨false⟩ addrA).2 11
      (by decide)).1,
    ((C8_LookupPublicKey noDiscovery (NewMultiNetwork [10, 11]) [] [1] ⟨false⟩ addrA).1
      (by decide)).1⟩

/-! ## C5: shutdown -/

theorem closeLoop_log (env : Constituents) (l : List Network) (st : CloseState) :
    (closeLoop env l st).log = st.log ++ l.map Event.Close := by
  induction l generalizing st with
  | nil => simp [closeLoop]
  | cons n rest ih =>
    rw [closeLoop]
    split <;> rw [ih] <;> simp

theorem closeLoop_retErr_of_some (env : Constituents) (l : List Network) (st : CloseState)
    (e : Error) (h : st.retErr = some e) : (closeLoop env l st).retErr = some e := by
  induction l generalizing st with
  | nil => simpa [closeLoop] using h
  | cons n rest ih =>
    rw [closeLoop]
    split
    · exact ih _ (by simp [h])
    · exact ih _ (by simpa using h)

theorem closeReturn_zero (env : Constituents) (n : Network) (rest : List Network)
    (log : List Event) : closeReturn env (n :: rest) log 0 = env.Close n log := by
  simp [closeReturn]

theorem closeReturn_succ (env : Constituents) (n : Network) (rest : List Network)
    (log : List Event) (i : Nat) :
    closeReturn env (n :: rest) log (i + 1) = closeReturn env rest (log ++ [Event.Close n]) i := by
  simp [closeReturn]

/-- The value of `retErr` at the end of the loop, when it is nil at the start. -/
theorem closeLoop_retErr (env : Constituents) (l : List Network) (st : CloseState)
    (h : st.retErr = none) :
    ((closeLoop env l st).retErr = none ↔
      ∀ i : Nat, i < l.length → closeReturn env l st.log i = none) ∧
    (∀ i : Nat, i < l.length → closeReturn env l st.log i ≠ none →
      (∀ j : Nat, j < i → closeReturn env l st.log j = none) →
      (closeLoop env l st).retErr = closeReturn env l st.log i) := by
  induction l generalizing st with
  | nil => simp [closeLoop, h]
  | cons n rest ih =>
    cases hc : env.Close n st.log with
    | some err =>
      have hr : (closeLoop env (n :: rest) st).retErr = some err := by
        rw [closeLoop]
        simp only [hc]
        exact closeLoop_retErr_of_some env rest _ err (by simp [h])
      rw [hr]
      constructor
      · constructor
        · intro hh; cases hh
        · intro hh
          have := hh 0 (by simp)
          rw [closeReturn_zero, hc] at this
          cases this
      · intro i _ _ hmin
        cases i with
        | zero => rw [closeReturn_zero, hc]
        | succ i =>
          have := hmin 0 (by omega)
          rw [closeReturn_zero, hc] at this
          cases this
    | none =>
      have hr : closeLoop env (n :: rest) st
          = closeLoop env rest { st with log := st.log ++ [Event.Close n] } := by
        rw [closeLoop]
        simp only [hc]
      have ih2 := ih { st with log := st.log ++ [Event.Close n] } h
      rw [hr]
      constructor
      · rw [ih2.1]
        constructor
        · intro hh i hi
          cases i with
          | zero => rw [closeReturn_zero, hc]
          | succ i => rw [closeReturn_succ]; exact hh i (by simpa using hi)
        · intro hh i hi
          have := hh (i + 1) (by simpa using hi)
          rwa [closeReturn_succ] at this
      · intro i hi hne hmin
        cases i with
        | zero => rw [closeReturn_zero, hc] at hne; exact absurd rfl hne
        | succ i =>
          rw [closeReturn_succ] at hne ⊢
          refine ih2.2 i (by simpa using hi) hne ?_
          intro j hj
          have := hmin (j + 1) (by omega)
          rwa [closeReturn_succ] at this

/-- C5: `Close` calls `Close` once on every constituent, in list order, whatever the earlier
ones returned, and calls nothing else; it returns nil exactly when every one of these calls
returned nil, and otherwise the error returned by the failing call of lowest index.  The
composite itself is unchanged. -/
theorem C5_shutdown_resilience (env : Constituents) (mn : multiNetwork) (log : List Event) :
    (mn.Close env log).1.log = log ++ mn.networks.map Event.Close ∧
    ((mn.Close env log).1.ret = none ↔
      ∀ i : Nat, i < mn.networks.length → closeReturn env mn.networks log i = none) ∧
    (∀ i : Nat, i < mn.networks.length → closeReturn env mn.networks log i ≠ none →
      (∀ j : Nat, j < i → closeReturn env mn.networks log j = none) →
      (mn.Close env log).1.ret = closeReturn env mn.networks log i) ∧
    (mn.Close env log).1.mn = mn := by
  have h := closeLoop_retErr env mn.networks ⟨none, log, []⟩ rfl
  exact ⟨closeLoop_log env mn.networks ⟨none, log, []⟩, h.1, h.2, rfl⟩

/-- C5 on three constituents of which only the second fails to close: all three are closed,
in order, and the error of the second is returned. -/
theorem C5_shutdown_resilience_witness :
    closeReturn cancelAware [20, 21, 22] [] 0 = none ∧
    closeReturn cancelAware [20, 21, 22] [] 1 = some (Error.constituent 2) ∧
    closeReturn cancelAware [20, 21, 22] [] 2 = none ∧
    ((NewMultiNetwork [20, 21, 22]).Close cancelAware []).1.log
      = [] ++ [Event.Close 20, Event.Close 21, Event.Close 22] ∧
    ((NewMultiNetwork [20, 21, 22]).Close cancelAware []).1.ret = some (Error.constituent 2) :=
  have h := C5_shutdown_resilience cancelAware (NewMultiNetwork [20, 21, 22]) []
  ⟨by decide, by decide, by decide, h.1,
    h.2.2.1 1 (by decide) (by decide) (by decide)⟩

/-! ## C6: receive callback -/

theorem onRecvLoop_log (fn : RecvFunc) (l : List Network) (log : List Event) :
    onRecvLoop fn l log = log ++ l.map (fun n => Event.OnRecv n fn) := by
  induction l generalizing log with
  | nil => simp [onRecvLoop]
  | cons n rest ih => rw [onRecvLoop, ih]; simp

/-- After `OnRecv` calls with `fn` on the constituents of `l`, `fn` is installed on each. -/
theorem installed_after_onRecv (fn : RecvFunc) (l : List Network) (log : List Event)
    (n : Network) (h : n ∈ l) :
    installed (log ++ l.map (fun m => Event.OnRecv m fn)) n = some fn := by
  unfold installed
  rw [List.foldl_append]
  generalize List.foldl _ none log = cur
  induction l generalizing cur with
  | nil => cases h
  | cons m rest ih =>
    rw [List.map_cons, List.foldl_cons]
    by_cases hm : n ∈ rest
    · exact ih hm _
    · have hmn : m = n := by
        rcases List.mem_cons.mp h with h1 | h1
        · exact h1.symm
        · exact absurd h1 hm
      subst hmn
      simp only [if_true]
      clear ih h
      induction rest with
      | nil => rfl
      | cons k rest ih2 =>
        have hk : k ≠ m := fun e => hm (by simp [e])
        have hm2 : m ∉ rest := fun e => hm (List.mem_cons_of_mem _ e)
        rw [List.map_cons, List.foldl_cons]
        simp only [hk, if_false]
        exact ih2 hm2

/-- C6: `OnRecv(f)` calls `OnRecv` with `f` once on every constituent, in list order, and
calls nothing else, so that `f` is the callback installed on each of them; it does not change
the composite, hence not the cache.  `OnRecv(f)` followed by `OnRecv(g)` leaves `g` installed
on every constituent. -/
theorem C6_receive_fan_out (mn : multiNetwork) (log : List Event) (f g : RecvFunc) :
    (mn.OnRecv log f).log = log ++ mn.networks.map (fun n => Event.OnRecv n f) ∧
    (∀ n ∈ mn.networks, installed (mn.OnRecv log f).log n = some f) ∧
    (mn.OnRecv log f).mn = mn ∧
    (∀ n ∈ mn.networks,
      installed ((mn.OnRecv log f).mn.OnRecv (mn.OnRecv log f).log g).log n = some g) ∧
    ((mn.OnRecv log f).mn.OnRecv (mn.OnRecv log f).log g).mn.addrMap = mn.addrMap := by
  have h1 : ∀ (l : List Event) (fn : RecvFunc),
      (mn.OnRecv l fn).log = l ++ mn.networks.map (fun n => Event.OnRecv n fn) :=
    fun l fn => onRecvLoop_log fn mn.networks l
  refine ⟨h1 log f, ?_, rfl, ?_, rfl⟩
  · intro n hn
    rw [h1]
    exact installed_after_onRecv f mn.networks log n hn
  · intro n hn
    have : (mn.OnRecv log f).mn = mn := rfl
    rw [this, h1]
    exact installed_after_onRecv g mn.networks _ n hn

theorem C6_receive_fan_out_witness :
    installed ((NewMultiNetwork [10, 11]).OnRecv [] ⟨1⟩).log 11 = some ⟨1⟩ ∧
    installed
      (((NewMultiNetwork [10, 11]).OnRecv [] ⟨1⟩).mn.OnRecv
        ((NewMultiNetwork [10, 11]).OnRecv [] ⟨1⟩).log ⟨2⟩).log 11 = some ⟨2⟩ :=
  have h := C6_receive_fan_out (NewMultiNetwork [10, 11]) [] ⟨1⟩ ⟨2⟩
  ⟨h.2.1 11 (by decide), h.2.2.2.1 11 (by decide)⟩

/-! ## Operations that run one after another -/

theorem Tell_mn (mn : multiNetwork) (env : Constituents) (log : List Event) (sched : List Nat)
    (ctx : Context) (dst : Addr) (data : List Nat) :
    (mn.Tell env log sched ctx dst data).mn = (mn.whichNetwork env log sched ctx dst).mn := by
  simp only [multiNetwork.Tell]
  split <;> rfl

theorem LookupPublicKey_mn (mn : multiNetwork) (env : Constituents) (log : List Event)
    (sched : List Nat) (ctx : Context) (target : Addr) :
    (mn.LookupPublicKey env log sched ctx target).mn
      = (mn.whichNetwork env log sched ctx target).mn := by
  simp only [multiNetwork.LookupPublicKey]
  split <;> rfl

theorem MTU_mn (mn : multiNetwork) (env : Constituents) (log : List Event) (sched : List Nat)
    (ctx : Context) (target : Addr) :
    (mn.MTU env log sched ctx target).mn = (mn.whichNetwork env log sched ctx target).mn := by
  simp only [multiNetwork.MTU]
  split <;> rfl

/-- After any operation the composite is the one before it, or the one `whichNetwork` leaves
for some address. -/
theorem Op.run_mn (env : Constituents) (w : World) (op : Op) :
    (op.run env w).mn = w.mn ∨
    ∃ sched ctx addr, (op.run env w).mn = (w.mn.whichNetwork env w.log sched ctx addr).mn := by
  cases op with
  | Tell sched ctx dst data => exact Or.inr ⟨sched, ctx, dst, Tell_mn _ _ _ _ _ _ _⟩
  | OnRecv fn => exact Or.inl rfl
  | FindAddr sched ctx pfx nbits => exact Or.inl (addrWithPrefix_mn _ _ _ _ _ _ _)
  | LookupPublicKey sched ctx target =>
    exact Or.inr ⟨sched, ctx, target, LookupPublicKey_mn _ _ _ _ _ _⟩
  | MTU sched ctx target => exact Or.inr ⟨sched, ctx, target, MTU_mn _ _ _ _ _ _⟩
  | Close => exact Or.inl rfl
  | whichNetwork sched ctx addr => exact Or.inr ⟨sched, ctx, addr, rfl⟩

theorem Op.run_networks (env : Constituents) (w : World) (op : Op) :
    (op.run env w).mn.networks = w.mn.networks := by
  rcases Op.run_mn env w op with h | ⟨sched, ctx, addr, h⟩
  · rw [h]
  · rw [h, whichNetwork_networks]

theorem runOps_networks (env : Constituents) (w : World) (ops : List Op) :
    (runOps env w ops).mn.networks = w.mn.networks := by
  induction ops generalizing w with
  | nil => rfl
  | cons op ops ih =>
    show (runOps env (op.run env w) ops).mn.networks = _
    rw [ih, Op.run_networks]

/-- An operation that calls `whichNetwork` leaves the world in which that call ends, followed
by the delegated call on its result. -/
theorem Op.run_of_resolves (env : Constituents) (w : World) (op : Op) (sched : List Nat)
    (ctx : Context) (addr : Addr) (h : op.resolves = some (sched, ctx, addr)) :
    op.run env w = ⟨(w.mn.whichNetwork env w.log sched ctx addr).mn,
      op.delegate (w.mn.whichNetwork env w.log sched ctx addr).log
        (w.mn.whichNetwork env w.log sched ctx addr).ret⟩ := by
  cases op with
  | Tell s c dst data =>
    cases h
    simp only [Op.run, multiNetwork.Tell]
    split <;> rename_i hr <;> simp only [hr, Op.delegate]
  | OnRecv fn => cases h
  | FindAddr s c pfx nbits => cases h
  | LookupPublicKey s c target =>
    cases h
    simp only [Op.run, multiNetwork.LookupPublicKey]
    split <;> rename_i hr <;> simp only [hr, Op.delegate]
  | MTU s c target =>
    cases h
    simp only [Op.run, multiNetwork.MTU]
    split <;> rename_i hr <;> simp only [hr, Op.delegate]
  | Close => cases h
  | whichNetwork s c a =>
    cases h
    simp only [Op.run, Op.delegate]

/-- A caller that runs with no other caller active does what the operation does when run
from call to return. -/
theorem Racing.run_alone (env : Constituents) (w : World) (op : Op) :
    (Racing.run env ⟨w, [Caller.start op]⟩ [0, 0, 0, 0]).world = op.run env w := by
  have hstep : ∀ (w2 : World) (c : Caller),
      Racing.step env ⟨w2, [c]⟩ 0 = ⟨(c.step env w2).2, [(c.step env w2).1]⟩ := fun _ _ => rfl
  simp only [Racing.run, List.foldl_cons, List.foldl_nil, hstep]
  cases hres : op.resolves with
  | none =>
    have h1 : Caller.step env w (Caller.start op) = (Caller.done, op.run env w) := by
      simp only [Caller.step, hres]
    rw [h1]
    rfl
  | some p =>
    obtain ⟨sched, ctx, addr⟩ := p
    rw [Op.run_of_resolves env w op sched ctx addr hres]
    cases hload : w.mn.addrMap.Load addr with
    | some x =>
      have h1 : Caller.step env w (Caller.start op) = (Caller.resolved op (some x), w) := by
        simp only [Caller.step, hres, hload]
      have h2 : w.mn.whichNetwork env w.log sched ctx addr = ⟨some x, w.mn, w.log⟩ :=
        whichNetwork_of_cached _ _ _ _ _ _ _ hload
      rw [h1, h2]
      rfl
    | none =>
      have h1 : Caller.step env w (Caller.start op) = (Caller.missed op sched ctx addr, w) := by
        simp only [Caller.step, hres, hload]
      rw [h1]
      have hlog := addrWithPrefix_log w.mn env w.log sched ctx addr.bytes (addr.bytes.length * 8)
      cases herr : (w.mn.addrWithPrefix env w.log sched ctx addr.bytes
          (addr.bytes.length * 8)).ret.err with
      | some e =>
        have h2 : Caller.step env w (Caller.missed op sched ctx addr)
            = (Caller.resolved op none, ⟨w.mn, (w.mn.addrWithPrefix env w.log sched ctx addr.bytes
                (addr.bytes.length * 8)).log⟩) := by
          simp only [Caller.step, herr]
        have h3 : w.mn.whichNetwork env w.log sched ctx addr
            = ⟨none, w.mn, (w.mn.addrWithPrefix env w.log sched ctx addr.bytes
                (addr.bytes.length * 8)).log⟩ := by
          simp only [multiNetwork.whichNetwork, hload, herr]
        rw [h2, h3]
        rfl
      | none =>
        obtain ⟨network, _, hnet⟩ :=
          addrWithPrefix_network_of_no_err w.mn env w.log sched ctx _ _ herr
        have h2 : Caller.step env w (Caller.missed op sched ctx addr)
            = (Caller.found op addr network, ⟨w.mn, (w.mn.addrWithPrefix env w.log sched ctx
                addr.bytes (addr.bytes.length * 8)).log⟩) := by
          simp only [Caller.step, herr, hnet]
        have h3 : w.mn.whichNetwork env w.log sched ctx addr
            = ⟨some network, { w.mn with addrMap := w.mn.addrMap.Store addr network },
                (w.mn.addrWithPrefix env w.log sched ctx addr.bytes
                  (addr.bytes.length * 8)).log⟩ := by
          simp only [multiNetwork.whichNetwork, hload, herr, hnet]
        rw [h2, h3]
        rfl

/-! ## C10: the ownership cache is kept, and re-bound only by a racing resolution -/

end Inet256
